import Mathlib

/-!
Verification development for the quicklyHttps HTTP client library.

The definitions below are a shallow embedding of the Go sources
(client.go, response.go, utils.go, request/verb files).  Pure helpers
become Lean functions; the stateful parts (the request descriptor that
is mutated during assembly, the response body cache) are modelled by
explicit state passing.  Go maps are modelled as association lists with
unique keys maintained by the operations; Go byte slices are modelled as
lists of naturals below 256; machine integers that never overflow in the
modelled paths are modelled as Int/Nat.
-/

namespace QuicklyHttps

/-! Basic string helpers (Go standard library fragments used by the code).
They are written over the character list of the string with structural
recursion so that concrete witnesses evaluate inside the kernel. -/

def strStartsWith (s p : String) : Bool := List.isPrefixOf p.data s.data

def strEndsWith (s p : String) : Bool :=
  List.isPrefixOf p.data.reverse s.data.reverse

/-- Go strings.TrimPrefix: remove the leading occurrence of a pattern, once. -/
def trimPrefixOnce (s p : String) : String :=
  if strStartsWith s p then ⟨s.data.drop p.data.length⟩ else s

/-- White space characters of Go unicode.IsSpace in the Latin-1 range. -/
def isGoSpace (c : Char) : Bool :=
  c = ' ' || c = Char.ofNat 9 || c = Char.ofNat 10 || c = Char.ofNat 11 ||
  c = Char.ofNat 12 || c = Char.ofNat 13 || c = Char.ofNat 133 || c = Char.ofNat 160

def dropLeadingSpaces : List Char → List Char
  | [] => []
  | c :: rest => if isGoSpace c then dropLeadingSpaces rest else c :: rest

/-- Go strings.TrimSpace. -/
def goTrimSpace (s : String) : String :=
  ⟨(dropLeadingSpaces ((dropLeadingSpaces s.data).reverse)).reverse⟩

/-- utils.go IsStringEmpty: true when the string is empty after trimming. -/
def isStringEmpty (s : String) : Bool := (goTrimSpace s).data.isEmpty

/-- UTF-8 bytes of one character (matches the Go byte view of a string). -/
def charUtf8Bytes (c : Char) : List Nat :=
  let n := c.toNat
  if n < 128 then [n]
  else if n < 2048 then [192 + n / 64, 128 + n % 64]
  else if n < 65536 then [224 + n / 4096, 128 + (n / 64) % 64, 128 + n % 64]
  else [240 + n / 262144, 128 + (n / 4096) % 64, 128 + (n / 64) % 64, 128 + n % 64]

/-- UTF-8 byte sequence of a string; len(s) in Go is the length of this list. -/
def utf8Bytes (s : String) : List Nat := (s.data.map charUtf8Bytes).flatten

/-! Association-list maps (Go map[string]V with unique keys). -/

/-- Lookup in an association list (Go map read). -/
def mapGet? {α : Type} : List (String × α) → String → Option α
  | [], _ => none
  | (k1, v) :: rest, k => if k1 = k then some v else mapGet? rest k

/-- Write to an association list, replacing an existing binding (Go map write). -/
def mapSet {α : Type} : List (String × α) → String → α → List (String × α)
  | [], k, v => [(k, v)]
  | (k1, v1) :: rest, k, v =>
    if k1 = k then (k, v) :: rest else (k1, v1) :: mapSet rest k v

/-! HTTP headers: Go net/http Header = map[string][]string with
canonicalised keys (net/textproto CanonicalMIMEHeaderKey). -/

abbrev Header := List (String × List String)

/-- Valid header-field characters per net/textproto isTokenTable. -/
def validHeaderFieldChar (c : Char) : Bool :=
  c.isAlphanum ||
  c = '!' || c = '#' || c = '$' || c = '%' || c = '&' || c = Char.ofNat 39 ||
  c = '*' || c = '+' || c = '-' || c = '.' || c = Char.ofNat 94 ||
  c = '_' || c = Char.ofNat 96 || c = '|' || c = '~'

/-- Canonical casing pass: uppercase at the start and after a hyphen. -/
def canonicalChars : Bool → List Char → List Char
  | _, [] => []
  | up, c :: rest =>
    (if up then c.toUpper else c.toLower) :: canonicalChars (c = '-') rest

/-- net/textproto CanonicalMIMEHeaderKey: canonicalise when every
character is a valid token character, otherwise return unchanged. -/
def canonicalMIMEHeaderKey (s : String) : String :=
  if s.data.all validHeaderFieldChar then ⟨canonicalChars true s.data⟩ else s

/-- http.Header.Set: replace all values of the canonicalised key. -/
def headerSet (h : Header) (k v : String) : Header :=
  mapSet h (canonicalMIMEHeaderKey k) [v]

/-- http.Header.Get: first value of the canonicalised key, or empty string. -/
def headerGet (h : Header) (k : String) : String :=
  match mapGet? h (canonicalMIMEHeaderKey k) with
  | some (v :: _) => v
  | _ => ""

/-- Direct lookup of all values stored under the canonicalised key. -/
def headerLookup (h : Header) (k : String) : Option (List String) :=
  mapGet? h (canonicalMIMEHeaderKey k)

/-- http.Header.Clone: an element-wise copy of the map and value slices. -/
def headerClone : Header → Header
  | [] => []
  | (k, vs) :: rest => (k, vs.map id) :: headerClone rest

/-! URL query encoding (net/url QueryEscape and Values.Encode). -/

/-- Bytes left unescaped by url.QueryEscape: ASCII alphanumerics and -_.~ -/
def queryUnescapedByte (b : Nat) : Bool :=
  (65 ≤ b && b ≤ 90) || (97 ≤ b && b ≤ 122) || (48 ≤ b && b ≤ 57) ||
  b = 45 || b = 95 || b = 46 || b = 126

/-- Uppercase hexadecimal digit for percent-encoding. -/
def hexDigitUpper (n : Nat) : Char :=
  if n < 10 then Char.ofNat (48 + n) else Char.ofNat (55 + n)

/-- Escape one byte per url.QueryEscape: space becomes +, unreserved bytes
pass through, everything else is percent-encoded. -/
def queryEscapeByte (b : Nat) : String :=
  if queryUnescapedByte b then String.singleton (Char.ofNat b)
  else if b = 32 then "+"
  else "%" ++ String.singleton (hexDigitUpper (b / 16)) ++
    String.singleton (hexDigitUpper (b % 16))

/-- url.QueryEscape over the UTF-8 bytes of the string. -/
def queryEscape (s : String) : String :=
  String.join ((utf8Bytes s).map queryEscapeByte)

/-- Byte-wise lexicographic comparison on strings (sort.Strings order;
UTF-8 encoding preserves code-point order, so a character comparison
agrees with the Go byte comparison). -/
def lexLeChars : List Char → List Char → Bool
  | [], _ => true
  | _ :: _, [] => false
  | a :: as, b :: bs =>
    if a.toNat < b.toNat then true
    else if b.toNat < a.toNat then false
    else lexLeChars as bs

def strLe (a b : String) : Bool := lexLeChars a.data b.data

def insertSorted (x : String) : List String → List String
  | [] => [x]
  | y :: ys => if strLe x y then x :: y :: ys else y :: insertSorted x ys

/-- Sorted key list, as produced by sort.Strings in url.Values.Encode. -/
def sortStrings : List String → List String
  | [] => []
  | x :: xs => insertSorted x (sortStrings xs)

/-- Go url.Values: map from key to an ordered list of values. -/
abbrev Vals := List (String × List String)

/-- url.Values.Encode: keys sorted byte-wise, each value escaped as
key=value, joined with ampersands. -/
def encodeValues (v : Vals) : String :=
  let keys := sortStrings (v.map (fun p => p.1))
  String.intercalate "&"
    ((keys.map (fun k =>
      ((mapGet? v k).getD []).map
        (fun x => queryEscape k ++ "=" ++ queryEscape x))).flatten)

/-! Empty-port stripping and host normalisation (utils.go removeEmptyPort,
applied to the authority component after url.Parse). -/

/-- strings.Split on a single-character separator. -/
def splitChars (sep : Char) : List Char → List (List Char)
  | [] => [[]]
  | c :: rest =>
    let r := splitChars sep rest
    if c = sep then [] :: r
    else
      match r with
      | h :: t => (c :: h) :: t
      | [] => [[c]]

/-- utils.go removeEmptyPort: strings.Split on the colon; when there is a
second, empty component the first component is returned. -/
def removeEmptyPort (host : String) : String :=
  match (splitChars ':' host.data).map (fun l => (⟨l⟩ : String)) with
  | p0 :: p1 :: _ => if p1 = "" then p0 else host
  | _ => host

/-- Split a character list at the first scheme separator marker. -/
def splitMarker : List Char → Option (List Char × List Char)
  | ':' :: '/' :: '/' :: rest => some ([], rest)
  | c :: rest => (splitMarker rest).map (fun p => (c :: p.1, p.2))
  | [] => none

/-- Split off the authority component: it ends at the first slash,
question mark or hash. -/
def splitAtAuthorityEnd : List Char → List Char × List Char
  | [] => ([], [])
  | c :: rest =>
    if c = '/' || c = '?' || c = '#' then ([], c :: rest)
    else
      let p := splitAtAuthorityEnd rest
      (c :: p.1, p.2)

/-- Model of parsing the assembled URL and setting u.Host to
removeEmptyPort(u.Host): only the authority component changes. -/
def normalizeEmptyPortInURL (u : String) : String :=
  match splitMarker u.data with
  | none => u
  | some (scheme, rest) =>
    let p := splitAtAuthorityEnd rest
    (⟨scheme⟩ : String) ++ "://" ++ removeEmptyPort ⟨p.1⟩ ++ (⟨p.2⟩ : String)

/-! JSON syntax checking.

The request-level SetBodyJSON uses the shape check isJSON (bracket
balance only); the client-level SetBodyJSON goes through marshalJSON,
whose string arm uses encoding/json json.Valid, i.e. full RFC 8259
syntax.  jsonValid below is a fuel-bounded recursive-descent checker of
that grammar; the fuel is generous (every recursive call consumes input,
so 4*length+8 calls always suffice). -/

/-- request file isJSON: bracket-balance shape check on the trimmed string. -/
def isJSON (str : String) : Bool :=
  let s := goTrimSpace str
  (strStartsWith s (String.singleton (Char.ofNat 123)) &&
    strEndsWith s (String.singleton (Char.ofNat 125))) ||
  (strStartsWith s "[" && strEndsWith s "]")

/-- JSON insignificant whitespace characters. -/
def jsonWS (c : Char) : Bool :=
  c = ' ' || c = Char.ofNat 9 || c = Char.ofNat 10 || c = Char.ofNat 13

def skipWS : List Char → List Char
  | [] => []
  | c :: rest => if jsonWS c then skipWS rest else c :: rest

def isHexDigitChar (c : Char) : Bool :=
  c.isDigit || (97 ≤ c.toNat && c.toNat ≤ 102) || (65 ≤ c.toNat && c.toNat ≤ 70)

/-- Match an exact character sequence. -/
def expectChars : List Char → List Char → Option (List Char)
  | [], l => some l
  | _ :: _, [] => none
  | e :: es, c :: l => if c = e then expectChars es l else none

/-- Rest of a JSON string after the opening quote: ordinary characters are
at least 0x20, escapes are the eight single-character escapes or a
Unicode escape with four hex digits. -/
def jsonStringRest : Nat → List Char → Option (List Char)
  | 0, _ => none
  | _, [] => none
  | fuel + 1, c :: rest =>
    if c = '"' then some rest
    else if c = '\\' then
      match rest with
      | [] => none
      | e :: r2 =>
        if e = '"' || e = '\\' || e = '/' || e = 'b' || e = 'f' ||
            e = 'n' || e = 'r' || e = 't' then jsonStringRest fuel r2
        else if e = 'u' then
          match r2 with
          | h1 :: h2 :: h3 :: h4 :: r3 =>
            if isHexDigitChar h1 && isHexDigitChar h2 &&
                isHexDigitChar h3 && isHexDigitChar h4 then
              jsonStringRest fuel r3
            else none
          | _ => none
        else none
    else if 32 ≤ c.toNat then jsonStringRest fuel rest
    else none

/-- Drop a leading run of decimal digits. -/
def takeDigits : List Char → List Char
  | [] => []
  | c :: rest => if c.isDigit then takeDigits rest else c :: rest

/-- Optional fraction and exponent parts of a JSON number. -/
def jsonFracExp (l : List Char) : Option (List Char) :=
  let step1 : Option (List Char) :=
    match l with
    | '.' :: r =>
      match r with
      | c :: _ => if c.isDigit then some (takeDigits r) else none
      | [] => none
    | _ => some l
  match step1 with
  | none => none
  | some l2 =>
    match l2 with
    | c :: r =>
      if c = 'e' || c = 'E' then
        let r2 := match r with
          | s :: rr => if s = '+' || s = '-' then rr else s :: rr
          | [] => []
        match r2 with
        | d :: _ => if d.isDigit then some (takeDigits r2) else none
        | [] => none
      else some l2
    | [] => some []

/-- JSON number: optional minus, then zero or a nonzero-led digit run,
then optional fraction and exponent. -/
def jsonNumber (l : List Char) : Option (List Char) :=
  let l1 := match l with
    | c :: r => if c = '-' then r else c :: r
    | [] => []
  match l1 with
  | [] => none
  | c :: r =>
    if c = '0' then jsonFracExp r
    else if c.isDigit then jsonFracExp (takeDigits r)
    else none

mutual

/-- One JSON value, leading whitespace allowed; returns the unconsumed rest. -/
def jsonVal : Nat → List Char → Option (List Char)
  | 0, _ => none
  | fuel + 1, l =>
    match skipWS l with
    | [] => none
    | c :: rest =>
      if c = Char.ofNat 123 then
        match skipWS rest with
        | [] => none
        | d :: r2 =>
          if d = Char.ofNat 125 then some r2 else jsonMembers fuel (d :: r2)
      else if c = '[' then
        match skipWS rest with
        | [] => none
        | d :: r2 =>
          if d = ']' then some r2 else jsonElems fuel (d :: r2)
      else if c = '"' then jsonStringRest fuel rest
      else if c = 't' then expectChars ['r', 'u', 'e'] rest
      else if c = 'f' then expectChars ['a', 'l', 's', 'e'] rest
      else if c = 'n' then expectChars ['u', 'l', 'l'] rest
      else jsonNumber (c :: rest)

/-- Object members: string, colon, value, then comma or closing brace. -/
def jsonMembers : Nat → List Char → Option (List Char)
  | 0, _ => none
  | fuel + 1, l =>
    match skipWS l with
    | '"' :: rest =>
      match jsonStringRest fuel rest with
      | none => none
      | some r1 =>
        match skipWS r1 with
        | ':' :: r2 =>
          match jsonVal fuel r2 with
          | none => none
          | some r3 =>
            match skipWS r3 with
            | ',' :: r4 => jsonMembers fuel r4
            | d :: r4 => if d = Char.ofNat 125 then some r4 else none
            | [] => none
        | _ => none
    | _ => none

/-- Array elements: value, then comma or closing bracket. -/
def jsonElems : Nat → List Char → Option (List Char)
  | 0, _ => none
  | fuel + 1, l =>
    match jsonVal fuel l with
    | none => none
    | some r =>
      match skipWS r with
      | ',' :: r2 => jsonElems fuel r2
      | ']' :: r2 => some r2
      | _ => none

end

/-- encoding/json json.Valid: one JSON value with optional surrounding
whitespace and nothing else. -/
def jsonValid (s : String) : Bool :=
  match jsonVal (4 * s.length + 8) s.data with
  | some rest => (skipWS rest).isEmpty
  | none => false

/-! Base64 (encoding/base64 StdEncoding, used by http Request.SetBasicAuth). -/

def base64Alphabet : List Char :=
  "ABCDEFGHIJKLMNOPQRSTUVWXYZabcdefghijklmnopqrstuvwxyz0123456789+/".data

def b64char (n : Nat) : Char := base64Alphabet.getD n '?'

/-- Standard base64 over a byte list, with padding. -/
def base64Chunks : List Nat → List Char
  | [] => []
  | [a] => [b64char (a / 4), b64char ((a % 4) * 16), '=', '=']
  | [a, b] => [b64char (a / 4), b64char ((a % 4) * 16 + b / 16),
      b64char ((b % 16) * 4), '=']
  | a :: b :: c :: rest =>
    b64char (a / 4) :: b64char ((a % 4) * 16 + b / 16) ::
      b64char ((b % 16) * 4 + c / 64) :: b64char (c % 64) :: base64Chunks rest

def base64Encode (s : String) : String := ⟨base64Chunks (utf8Bytes s)⟩

/-! Data model: client configuration, request descriptor, wire request.

Fields that no claim touches (loggers, timeouts, timestamps, codec hooks,
the cancellation context, the cookie jar) are omitted; the request
transform hook is a function-typed client field in Go and is modelled as
an explicit argument of Execute so the client configuration stays
first-order. -/

structure User where
  username : String
  password : String
  deriving DecidableEq

structure Cookie where
  name : String
  value : String
  deriving DecidableEq

structure ClientM where
  basicAuthToken : String
  headerAuthorizationKey : String
  authScheme : String
  method : String
  baseURL : String
  retryMax : Int
  header : Header
  queryParams : List (String × String)
  body : String
  formParams : Vals
  cookies : List Cookie
  userInfo : Option User
  deriving DecidableEq

/-- client.go NewClient: note that BasicAuthToken is initialised with the
defaultHeaderAuthorizationKey constant and HeaderAuthorizationKey is left
at its zero value. -/
def newClient : ClientM :=
  { basicAuthToken := "Authorization"
    headerAuthorizationKey := ""
    authScheme := "Bearer"
    method := ""
    baseURL := ""
    retryMax := 5
    header := []
    queryParams := []
    body := ""
    formParams := []
    cookies := []
    userInfo := none }

def contentTypeJson : String := "application/json"

/-- client.go SetRetryMax.  The Go body is
if retryMax < 0 then the LOCAL PARAMETER is set to 1 (a dead write: the
field is not assigned) else the field is set; observable semantics: a
negative argument leaves the client unchanged. -/
def setRetryMax (c : ClientM) (n : Int) : ClientM :=
  if n < 0 then c else { c with retryMax := n }

/-- client.go SetBodyJSON restricted to its string argument case:
marshalJSON (utils.go) passes a string through when json.Valid accepts
it and errors otherwise; on error the client is returned unchanged (the
Content-Type header write is skipped). -/
def clientSetBodyJSONString (c : ClientM) (s : String) : ClientM :=
  if jsonValid s then
    { c with body := s, header := headerSet c.header "Content-Type" contentTypeJson }
  else c

/-- The fully-resolved outbound request built by newRequest. -/
structure WireRequest where
  method : String
  urlString : String
  header : Header
  contentLength : Int
  bodyStream : String
  getBody : Unit → Except String String

/-- The request descriptor (request file).  The embedded http.Request
pointer starts out nil and is modelled by the request field. -/
structure RequestM where
  method : String
  body : String
  urlPoint : String
  header : Header
  cookies : List Cookie
  queryParams : List (String × String)
  formParams : Vals
  getBody : Option (Unit → Except String String)
  request : Option WireRequest

/-- client.go copyMap: element-wise copy of a string map. -/
def copyMap : List (String × String) → List (String × String)
  | [] => []
  | (k, v) :: rest => (k, v) :: copyMap rest

/-- client.go copyValues: copy of url.Values with copied value slices. -/
def copyValues : Vals → Vals
  | [] => []
  | (k, vs) :: rest => (k, vs.map id) :: copyValues rest

/-- Slice copy used for the cookie list in R(). -/
def copyCookieList : List Cookie → List Cookie
  | [] => []
  | c :: rest => c :: copyCookieList rest

/-- client.go R(): defaults the client method to GET (mutating the
client), then builds a descriptor from copies of the client defaults. -/
def clientRvalue (c : ClientM) : ClientM × RequestM :=
  let c1 := if c.method = "" then { c with method := "GET" } else c
  (c1,
    { method := c1.method
      body := c.body
      urlPoint := ""
      header := headerClone c.header
      cookies := copyCookieList c.cookies
      queryParams := copyMap c.queryParams
      formParams := copyValues c.formParams
      getBody := none
      request := none })

/-- request file Request setters used by the claims. -/
def requestSetBody (r : RequestM) (b : String) : RequestM := { r with body := b }

/-- request file SetBodyJSON restricted to its string case: pass through
when isJSON holds, otherwise log and leave the body unchanged; the
Content-Type header is forced in either case. -/
def reqSetBodyJSONString (r : RequestM) (s : String) : RequestM :=
  let r1 := if isJSON s then { r with body := s } else r
  { r1 with header := headerSet r1.header "Content-Type" contentTypeJson }

/-- request file prepareRequestBody: the urlencoded form when form
parameters are present, otherwise the raw body string. -/
def prepareRequestBody (r : RequestM) : String :=
  if r.formParams.length > 0 then encodeValues r.formParams else r.body

/-- request file prepareRequestURL: strip one leading slash from the
target, then append the encoded query map when non-empty. -/
def prepareRequestURL (r : RequestM) : String :=
  let urlPath := trimPrefixOnce r.urlPoint "/"
  if r.queryParams.length > 0 then
    urlPath ++ "?" ++ encodeValues (r.queryParams.map (fun p => (p.1, [p.2])))
  else urlPath

/-- http Request.SetBasicAuth header value. -/
def basicAuthValue (u : User) : String :=
  "Basic " ++ base64Encode (u.username ++ ":" ++ u.password)

/-- net/http Request.AddCookie: append name=value to the single Cookie
header (cookie value sanitisation is not modelled; no claim uses values
that it would change). -/
def addCookieHeader (h : Header) (ck : Cookie) : Header :=
  let s := ck.name ++ "=" ++ ck.value
  let cur := headerGet h "Cookie"
  if cur = "" then headerSet h "Cookie" s
  else headerSet h "Cookie" (cur ++ "; " ++ s)

/-- request file newRequest.  Returns the assembly result together with
the post-state of the descriptor (the Go function mutates the descriptor
through its pointer receiver).  Faithful ordering: the URL is resolved
first; the body and re-read supplier next (the installed supplier
returns the RAW body string); the method check follows; the wire request
is then built with a CLONE of the descriptor header; cookies are
attached; authentication is injected last — through r.Request (nil for a
fresh descriptor: the basic-auth branch dereferences a nil pointer,
modelled as a panic error) or through the descriptor header (too late to
reach the already-cloned wire header).  url.Parse is modelled as always
succeeding (no claim exercises a parse failure); the context default is
omitted. -/
def newRequest (c : ClientM) (r : RequestM) : Except String WireRequest × RequestM :=
  let fullURL := normalizeEmptyPortInURL (c.baseURL ++ "/" ++ prepareRequestURL r)
  let bodyRes : Except String (String × Int × (Unit → Except String String) × RequestM) :=
    match r.getBody with
    | some f =>
      match f () with
      | Except.error e => Except.error e
      | Except.ok b => Except.ok (b, 0, f, r)
    | none =>
      let prepared := prepareRequestBody r
      let inst : Unit → Except String String := fun _ => Except.ok r.body
      Except.ok (prepared, ((utf8Bytes prepared).length : Int),
        inst, { r with getBody := some inst })
  match bodyRes with
  | Except.error e => (Except.error e, r)
  | Except.ok (bodyStr, clen, supplier, r1) =>
    if r1.method = "" then (Except.error "HTTP method is not set", r1)
    else
      let reqHeader := r1.cookies.foldl addCookieHeader (headerClone r1.header)
      let req : WireRequest :=
        { method := r1.method
          urlString := fullURL
          header := reqHeader
          contentLength := clen
          bodyStream := bodyStr
          getBody := supplier }
      match c.userInfo with
      | some u =>
        match r1.request with
        | none =>
          (Except.error "panic: runtime error: invalid memory address or nil pointer dereference", r1)
        | some old =>
          let old1 := { old with
            header := headerSet old.header "Authorization" (basicAuthValue u) }
          (Except.ok req, { r1 with request := some old1 })
      | none =>
        if isStringEmpty c.basicAuthToken then (Except.ok req, r1)
        else
          let tokenValue := c.authScheme ++ " " ++ c.basicAuthToken
          (Except.ok req,
            { r1 with header := headerSet r1.header c.headerAuthorizationKey tokenValue })

/-- The first two lines of Execute: store the slash-stripped target path,
then assemble. -/
def assembleForPath (c : ClientM) (r : RequestM) (urlPath : String) :
    Except String WireRequest × RequestM :=
  newRequest c { r with urlPoint := trimPrefixOnce urlPath "/" }

/-! Response envelope (response.go).  The transport response carries a
status code, headers, and possibly a body stream; the stream is modelled
by the sequence of outcomes of successive read-and-close attempts, with
a counter recording how many such attempts the envelope has made. -/

structure HTTPResponse where
  statusCode : Int
  header : Header
  hasBodyStream : Bool
  deriving DecidableEq

structure RespEnv where
  underlying : Option HTTPResponse
  cachedBody : Option (List Nat)
  errRecorded : Option String
  readCount : Nat
  deriving DecidableEq

/-- client.go Do wraps a successful transport response. -/
def mkEnvelope (resp : HTTPResponse) : RespEnv :=
  { underlying := some resp, cachedBody := none, errRecorded := none, readCount := 0 }

/-- response.go Body(): nil underlying response short-circuits to nil;
otherwise, when nothing is cached and a stream exists, readBody reads
and closes the stream — on error the error is recorded and nil returned
(the cache stays empty), on success the bytes are cached; otherwise the
cache (possibly nil) is returned. -/
def bodyCall (r : RespEnv) (stream : Nat → Except String (List Nat)) :
    Option (List Nat) × RespEnv :=
  match r.underlying with
  | none => (none, r)
  | some u =>
    if r.cachedBody.isNone && u.hasBodyStream then
      match stream r.readCount with
      | Except.error e =>
        (none, { r with errRecorded := some e, readCount := r.readCount + 1 })
      | Except.ok b =>
        (some b, { r with cachedBody := some b, readCount := r.readCount + 1 })
    else (r.cachedBody, r)

/-- response.go StatusCode(): 0 for a nil underlying response. -/
def respStatusCode (r : RespEnv) : Int :=
  match r.underlying with
  | some u => u.statusCode
  | none => 0

/-- response.go Header(): empty header for a nil underlying response. -/
def respHeader (r : RespEnv) : Header :=
  match r.underlying with
  | some u => u.header
  | none => []

def isSuccess (r : RespEnv) : Bool :=
  decide (200 ≤ respStatusCode r) && decide (respStatusCode r < 300)

def isClientError (r : RespEnv) : Bool :=
  decide (400 ≤ respStatusCode r) && decide (respStatusCode r < 500)

def isServerError (r : RespEnv) : Bool :=
  decide (500 ≤ respStatusCode r) && decide (respStatusCode r < 600)

/-! The execution loop (request file Execute).  The transport is the
opaque collaborator: attempt i either fails with a transport error
string or yields a response.  Do never pairs a nil error with a nil
response, so the loop condition (ok == nil and response.Response != nil)
collapses to transport success. -/

/-- The retry loop: countdown of remaining attempts, accumulator of
attempts made; returns the generic exhaustion error or the first
successful envelope, together with the number of dispatch attempts. -/
def runRetryLoop (transport : Nat → Except String HTTPResponse) :
    Nat → Nat → Except String RespEnv × Nat
  | 0, attempted => (Except.error "failed to execute request", attempted)
  | n + 1, attempted =>
    match transport attempted with
    | Except.ok resp => (Except.ok (mkEnvelope resp), attempted + 1)
    | Except.error _ => runRetryLoop transport n (attempted + 1)

/-- request file Execute: strip the path, assemble once, apply the
optional transform hook once, then loop RetryMax times (a non-positive
RetryMax runs the loop zero times).  Returns the result, the number of
dispatch attempts, and the descriptor post-state. -/
def executeM (c : ClientM) (r : RequestM) (urlPath : String)
    (hook : Option (WireRequest → WireRequest))
    (transport : Nat → Except String HTTPResponse) :
    (Except String RespEnv × Nat) × RequestM :=
  match assembleForPath c r urlPath with
  | (Except.error e, r2) => ((Except.error e, 0), r2)
  | (Except.ok w, r2) =>
    let w2 := match hook with
      | some f => f w
      | none => w
    (runRetryLoop transport c.retryMax.toNat 0, { r2 with request := some w2 })

/-! Aliasing model for R() snapshotting (claim about copyMap/copyValues).

Go maps and slices are references into the heap; whether R() copies or
aliases them is invisible to a purely value-level embedding, so the four
collection-valued fields are modelled as references into stores of
cells.  R() allocates fresh cells holding element-wise copies of the
client cells (client.go copyMap, copyValues, Header.Clone, and the
append-to-empty slice copy); the client setters write through the client
references. -/

structure Store (α : Type) where
  cells : List α
  deriving DecidableEq

def Store.get {α : Type} (s : Store α) (i : Nat) (d : α) : α := s.cells.getD i d

def Store.set {α : Type} (s : Store α) (i : Nat) (v : α) : Store α :=
  ⟨s.cells.set i v⟩

def Store.alloc {α : Type} (s : Store α) (v : α) : Store α × Nat :=
  (⟨s.cells ++ [v]⟩, s.cells.length)

/-- The heap of collection cells: one store per collection kind. -/
structure HWorld where
  headersS : Store Header
  queriesS : Store (List (String × String))
  formsS : Store Vals
  cookiesS : Store (List Cookie)
  deriving DecidableEq

/-- The client references its default collections. -/
structure ClientRefs where
  hRef : Nat
  qRef : Nat
  fRef : Nat
  cRef : Nat
  deriving DecidableEq

/-- A descriptor built by R() references its own snapshot cells. -/
structure RequestRefs where
  hRef : Nat
  qRef : Nat
  fRef : Nat
  cRef : Nat
  deriving DecidableEq

/-- client.go R() on the reference model: allocate fresh cells holding
copies of the client cells. -/
def clientR (w : HWorld) (c : ClientRefs) : HWorld × RequestRefs :=
  let ha := w.headersS.alloc (headerClone (w.headersS.get c.hRef []))
  let qa := w.queriesS.alloc (copyMap (w.queriesS.get c.qRef []))
  let fa := w.formsS.alloc (copyValues (w.formsS.get c.fRef []))
  let ca := w.cookiesS.alloc (copyCookieList (w.cookiesS.get c.cRef []))
  (⟨ha.1, qa.1, fa.1, ca.1⟩, ⟨ha.2, qa.2, fa.2, ca.2⟩)

/-- The client mutators of client.go that touch the four collections. -/
inductive ClientMut where
  | setHeader (k v : String)
  | setQueryParam (k v : String)
  | setFormParam (k v : String)
  | setCookieRaw (ck : Cookie)
  | clearCookies
  deriving DecidableEq

/-- Apply one client mutator: each writes through the client reference
of its collection (client.go SetHeader, SetQueryParam, SetFormParam,
SetCookieRaw, ClearCookies). -/
def applyMut (c : ClientRefs) (w : HWorld) : ClientMut → HWorld
  | ClientMut.setHeader k v =>
    { w with headersS := w.headersS.set c.hRef (headerSet (w.headersS.get c.hRef []) k v) }
  | ClientMut.setQueryParam k v =>
    { w with queriesS := w.queriesS.set c.qRef (mapSet (w.queriesS.get c.qRef []) k v) }
  | ClientMut.setFormParam k v =>
    { w with formsS := w.formsS.set c.fRef (mapSet (w.formsS.get c.fRef []) k [v]) }
  | ClientMut.setCookieRaw ck =>
    { w with cookiesS := w.cookiesS.set c.cRef ((w.cookiesS.get c.cRef []) ++ [ck]) }
  | ClientMut.clearCookies =>
    { w with cookiesS := w.cookiesS.set c.cRef [] }

def applyMuts (c : ClientRefs) (w : HWorld) (ms : List ClientMut) : HWorld :=
  ms.foldl (applyMut c) w

/-- What an in-flight descriptor observes through its references. -/
def requestView (w : HWorld) (r : RequestRefs) :
    Header × List (String × String) × Vals × List Cookie :=
  (w.headersS.get r.hRef [], w.queriesS.get r.qRef [],
    w.formsS.get r.fRef [], w.cookiesS.get r.cRef [])

/-- What the client observes through its references. -/
def clientView (w : HWorld) (c : ClientRefs) :
    Header × List (String × String) × Vals × List Cookie :=
  (w.headersS.get c.hRef [], w.queriesS.get c.qRef [],
    w.formsS.get c.fRef [], w.cookiesS.get c.cRef [])

/-! Concrete instances used by witnesses and counterexamples. -/

/-- An always-failing transport (for example connection refused). -/
def tFail : Nat → Except String HTTPResponse :=
  fun _ => Except.error "connection refused"

def cW1 : ClientM := { newClient with retryMax := 2 }

def rW1 : RequestM := (clientRvalue cW1).2

def resp500 : HTTPResponse := { statusCode := 500, header := [], hasBodyStream := true }

def tOk500 : Nat → Except String HTTPResponse := fun _ => Except.ok resp500

def cW2 : ClientM := newClient

def rW2 : RequestM := (clientRvalue cW2).2

def c4client : ClientM :=
  { newClient with
    basicAuthToken := "tok"
    authScheme := "Bearer"
    headerAuthorizationKey := "Authorization" }

def c4req : RequestM := { (clientRvalue c4client).2 with urlPoint := "p" }

def c4user : ClientM :=
  { c4client with userInfo := some { username := "alice", password := "secret" } }

def envFail : RespEnv :=
  { underlying := some { statusCode := 200, header := [], hasBodyStream := true }
    cachedBody := none, errRecorded := none, readCount := 0 }

def streamFail : Nat → Except String (List Nat) :=
  fun _ => Except.error "read error"

def envA : RespEnv :=
  { underlying := some { statusCode := 200, header := [], hasBodyStream := true }
    cachedBody := none, errRecorded := none, readCount := 0 }

/-- A stream whose first (and only meaningful) read yields two bytes. -/
def streamA : Nat → Except String (List Nat) :=
  fun _ => Except.ok [104, 105]

def c6client : ClientM :=
  { newClient with body := "B", header := headerSet [] "Content-Type" "text/plain" }

def c7req : RequestM :=
  { (clientRvalue newClient).2 with urlPoint := "p", formParams := [("a", ["b"])] }

def c8client : ClientM := { newClient with baseURL := "http://example.com/api" }

def c8req : RequestM := { (clientRvalue c8client).2 with queryParams := [("id", "5")] }

def w0 : HWorld :=
  { headersS := ⟨[[("X-Seed", ["1"])]]⟩
    queriesS := ⟨[[("q", "0")]]⟩
    formsS := ⟨[[("f", ["0"])]]⟩
    cookiesS := ⟨[[{ name := "sid", value := "7" }]]⟩ }

def c0 : ClientRefs := { hRef := 0, qRef := 0, fRef := 0, cRef := 0 }

def msW : List ClientMut :=
  [ClientMut.setHeader "X-Seed" "2", ClientMut.setQueryParam "q" "9",
    ClientMut.setFormParam "f" "9", ClientMut.setCookieRaw { name := "sid2", value := "8" },
    ClientMut.clearCookies]

def envNil : RespEnv :=
  { underlying := none, cachedBody := none, errRecorded := none, readCount := 0 }

/-! Helper lemmas shared by the claim theorems. -/

theorem runRetryLoop_allfail (transport : Nat → Except String HTTPResponse)
    (hfail : ∀ i, ∃ e, transport i = Except.error e) :
    ∀ (n a : Nat), runRetryLoop transport n a
      = (Except.error "failed to execute request", a + n)
  | 0, a => by simp [runRetryLoop]
  | n + 1, a => by
    obtain ⟨e, he⟩ := hfail a
    simp only [runRetryLoop, he]
    rw [runRetryLoop_allfail transport hfail n (a + 1)]
    congr 1
    omega

theorem mapGet?_mapSet_self {α : Type} (m : List (String × α)) (k : String) (v : α) :
    mapGet? (mapSet m k v) k = some v := by
  induction m with
  | nil => simp [mapSet, mapGet?]
  | cons p rest ih =>
    obtain ⟨k1, v1⟩ := p
    by_cases h : k1 = k
    · simp [mapSet, mapGet?, h]
    · simp [mapSet, mapGet?, h, ih]

theorem headerGet_headerSet (h : Header) (k v : String) :
    headerGet (headerSet h k v) k = v := by
  unfold headerGet headerSet
  rw [mapGet?_mapSet_self]

theorem getD_append_len {α : Type} : ∀ (l : List α) (v d : α),
    (l ++ [v]).getD l.length d = v
  | [], _, _ => rfl
  | _ :: t, v, d => getD_append_len t v d

theorem getD_set_ne {α : Type} (l : List α) :
    ∀ (i j : Nat) (v d : α), i ≠ j → (l.set i v).getD j d = l.getD j d := by
  induction l with
  | nil => intro i j _ _ _; rfl
  | cons a t ih =>
    intro i j v d h
    cases i with
    | zero =>
      cases j with
      | zero => exact absurd rfl h
      | succ j1 => rfl
    | succ i1 =>
      cases j with
      | zero => rfl
      | succ j1 =>
        have h1 : i1 ≠ j1 := fun e => h (by rw [e])
        show (t.set i1 v).getD j1 d = t.getD j1 d
        exact ih i1 j1 v d h1

theorem Store.get_set_ne {α : Type} (s : Store α) (i j : Nat) (v d : α)
    (h : i ≠ j) : (s.set i v).get j d = s.get j d :=
  getD_set_ne s.cells i j v d h

theorem copyMap_eq : ∀ m : List (String × String), copyMap m = m
  | [] => rfl
  | (k, v) :: rest => by rw [copyMap, copyMap_eq rest]

theorem copyValues_eq : ∀ v : Vals, copyValues v = v
  | [] => rfl
  | (k, vs) :: rest => by rw [copyValues, copyValues_eq rest, List.map_id]

theorem copyCookieList_eq : ∀ l : List Cookie, copyCookieList l = l
  | [] => rfl
  | c :: rest => by rw [copyCookieList, copyCookieList_eq rest]

theorem headerClone_eq : ∀ h : Header, headerClone h = h
  | [] => rfl
  | (k, vs) :: rest => by rw [headerClone, headerClone_eq rest, List.map_id]

theorem applyMut_requestView (c : ClientRefs) (req : RequestRefs) (w : HWorld)
    (m : ClientMut)
    (nh : c.hRef ≠ req.hRef) (nq : c.qRef ≠ req.qRef)
    (nf : c.fRef ≠ req.fRef) (nc : c.cRef ≠ req.cRef) :
    requestView (applyMut c w m) req = requestView w req := by
  cases m with
  | setHeader k v => simp [applyMut, requestView, Store.get_set_ne _ _ _ _ _ nh]
  | setQueryParam k v => simp [applyMut, requestView, Store.get_set_ne _ _ _ _ _ nq]
  | setFormParam k v => simp [applyMut, requestView, Store.get_set_ne _ _ _ _ _ nf]
  | setCookieRaw ck => simp [applyMut, requestView, Store.get_set_ne _ _ _ _ _ nc]
  | clearCookies => simp [applyMut, requestView, Store.get_set_ne _ _ _ _ _ nc]

theorem applyMuts_requestView (c : ClientRefs) (req : RequestRefs)
    (nh : c.hRef ≠ req.hRef) (nq : c.qRef ≠ req.qRef)
    (nf : c.fRef ≠ req.fRef) (nc : c.cRef ≠ req.cRef) :
    ∀ (ms : List ClientMut) (w : HWorld),
      requestView (applyMuts c w ms) req = requestView w req
  | [], _ => rfl
  | m :: ms, w => by
    show requestView (applyMuts c (applyMut c w m) ms) req = _
    rw [applyMuts_requestView c req nh nq nf nc ms (applyMut c w m),
      applyMut_requestView c req w m nh nq nf nc]

/-! Claim theorems. -/

/-- Claim C1 (confirmed): for every retry ceiling N at least 1, when the
assembly succeeds and every transport dispatch fails, Execute makes
exactly N dispatch attempts and returns the generic
"failed to execute request" error, which is a constant independent of
the per-attempt transport errors (so it carries no detail about the last
underlying failure). -/
theorem execute_exhaustion_generic_error
    (c : ClientM) (r : RequestM) (p : String)
    (hook : Option (WireRequest → WireRequest))
    (transport : Nat → Except String HTTPResponse)
    (hasm : ∃ w r2, assembleForPath c r p = (Except.ok w, r2))
    (hN : 1 ≤ c.retryMax)
    (hfail : ∀ i, ∃ e, transport i = Except.error e) :
    (executeM c r p hook transport).1
      = (Except.error "failed to execute request", c.retryMax.toNat)
    ∧ (c.retryMax.toNat : Int) = c.retryMax := by
  obtain ⟨w, r2, hw⟩ := hasm
  constructor
  · unfold executeM
    rw [hw]
    simpa using runRetryLoop_allfail transport hfail c.retryMax.toNat 0
  · omega

/-- Witness for C1 at a concrete client with retry ceiling 2 and an
always-failing transport: exactly two attempts, generic error. -/
theorem execute_exhaustion_generic_error_witness :
    (executeM cW1 rW1 "x" none tFail).1
      = (Except.error "failed to execute request", 2) :=
  (execute_exhaustion_generic_error cW1 rW1 "x" none tFail
    ⟨_, _, rfl⟩ (by decide) (fun _ => ⟨"connection refused", rfl⟩)).1

/-- Claim C2 (corrected), counterexample: SetRetryMax(-1) on a fresh
client leaves RetryMax at its default 5, not 1 — the clamp in the Go
source assigns the local parameter, never the field. -/
theorem setRetryMax_claim_false :
    (setRetryMax newClient (-1)).retryMax = 5 ∧ ((5 : Int) ≠ 1) := by decide

/-- Claim C2 (corrected), amended: a negative argument to SetRetryMax
leaves the client unchanged (the clamp is a dead write to the local
parameter); a non-negative argument is stored verbatim; and on an
all-failing transport Execute performs toNat(RetryMax) dispatch
attempts, hence zero attempts for a ceiling of 0 — there is no minimum
effective value of 1. -/
theorem setRetryMax_amended
    (c : ClientM) (n : Int)
    (transport : Nat → Except String HTTPResponse)
    (hfail : ∀ i, ∃ e, transport i = Except.error e) :
    (n < 0 → setRetryMax c n = c)
    ∧ (0 ≤ n → (setRetryMax c n).retryMax = n)
    ∧ (∀ r p hook, (∃ w r2, assembleForPath c r p = (Except.ok w, r2)) →
        (executeM c r p hook transport).1
          = (Except.error "failed to execute request", c.retryMax.toNat)) := by
  refine ⟨?_, ?_, ?_⟩
  · intro h
    simp [setRetryMax, h]
  · intro h
    simp [setRetryMax, show ¬ n < 0 by omega]
  · intro r p hook hasm
    obtain ⟨w, r2, hw⟩ := hasm
    unfold executeM
    rw [hw]
    simpa using runRetryLoop_allfail transport hfail c.retryMax.toNat 0

/-- Witness for the amended C2: SetRetryMax(-1) is the identity on the
default client, SetRetryMax(3) stores 3, and the default client performs
5 (not 1) attempts before the generic error. -/
theorem setRetryMax_amended_witness :
    setRetryMax newClient (-1) = newClient
    ∧ (setRetryMax newClient 3).retryMax = 3
    ∧ (executeM cW2 rW2 "q" none tFail).1
        = (Except.error "failed to execute request", 5) := by
  have h1 := setRetryMax_amended newClient (-1) tFail
    (fun _ => ⟨"connection refused", rfl⟩)
  have h2 := setRetryMax_amended newClient 3 tFail
    (fun _ => ⟨"connection refused", rfl⟩)
  have h3 := setRetryMax_amended cW2 0 tFail
    (fun _ => ⟨"connection refused", rfl⟩)
  exact ⟨h1.1 (by decide), h2.2.1 (by decide),
    h3.2.2 rW2 "q" none ⟨_, _, rfl⟩⟩

/-- Claim C3 (confirmed): when the first dispatch succeeds, Execute
returns its envelope after exactly one attempt, for every status code
(no status inspection); and IsServerError on that envelope holds exactly
when the status code lies in the interval from 500 up to but excluding
600. -/
theorem execute_first_success_no_retry
    (c : ClientM) (r : RequestM) (p : String)
    (hook : Option (WireRequest → WireRequest))
    (transport : Nat → Except String HTTPResponse) (resp : HTTPResponse)
    (hasm : ∃ w r2, assembleForPath c r p = (Except.ok w, r2))
    (hN : 1 ≤ c.retryMax)
    (h0 : transport 0 = Except.ok resp) :
    (executeM c r p hook transport).1 = (Except.ok (mkEnvelope resp), 1)
    ∧ (isServerError (mkEnvelope resp) = true
        ↔ 500 ≤ resp.statusCode ∧ resp.statusCode < 600) := by
  obtain ⟨w, r2, hw⟩ := hasm
  constructor
  · unfold executeM
    rw [hw]
    obtain ⟨m, hm⟩ : ∃ m, c.retryMax.toNat = m + 1 :=
      ⟨c.retryMax.toNat - 1, by omega⟩
    simp [hm, runRetryLoop, h0]
  · simp [isServerError, respStatusCode, mkEnvelope]

/-- Witness for C3: a transport answering status 500 on the first
attempt yields a success after one attempt with IsServerError true. -/
theorem execute_first_success_no_retry_witness :
    (executeM cW1 rW1 "x" none tOk500).1 = (Except.ok (mkEnvelope resp500), 1)
    ∧ isServerError (mkEnvelope resp500) = true := by
  have h := execute_first_success_no_retry cW1 rW1 "x" none tOk500 resp500
    ⟨_, _, rfl⟩ (by decide) rfl
  exact ⟨h.1, h.2.mpr (by decide)⟩

/-- Claim C4 (code bug): with a bearer token configured (and no user
credentials) the assembled wire request carries NO Authorization header
— the token is written into the descriptor header only after the wire
header was cloned; and with user credentials set the assembly
dereferences the nil embedded request and panics instead of applying
basic auth. -/
theorem auth_injection_never_reaches_wire :
    Except.map (fun w => mapGet? w.header "Authorization")
        (newRequest c4client c4req).1 = Except.ok none
    ∧ mapGet? ((newRequest c4client c4req).2.header) "Authorization"
        = some ["Bearer tok"]
    ∧ (newRequest c4user c4req).1
        = Except.error "panic: runtime error: invalid memory address or nil pointer dereference" :=
  ⟨rfl, rfl, rfl⟩

/-- Claim C5 (corrected), counterexample: after a failed first read the
error is recorded and nil returned, but the cache stays empty, so a
second Body() call reads (and closes) the underlying stream again — two
read attempts, contradicting the at-most-once part of the claim. -/
theorem body_cache_claim_false :
    (bodyCall envFail streamFail).1 = none
    ∧ (bodyCall envFail streamFail).2.errRecorded = some "read error"
    ∧ (bodyCall (bodyCall envFail streamFail).2 streamFail).2.readCount = 2
    ∧ ¬ (bodyCall (bodyCall envFail streamFail).2 streamFail).2.readCount ≤ 1 := by
  decide

/-- Claim C5 (corrected), amended: on an envelope with a response, a
cached body is returned as-is with no further read; an uncached
successful read caches the bytes and a second call returns the identical
bytes without reading again (exactly-once on the success path); a failed
read records the error and returns empty, but leaves the cache empty, so
later calls attempt the read again — the stream may be read and closed
more than once in the failure case. -/
theorem body_cache_amended (env : RespEnv) (u : HTTPResponse)
    (stream : Nat → Except String (List Nat)) (b : List Nat) (e : String)
    (hu : env.underlying = some u) :
    (env.cachedBody = some b → bodyCall env stream = (some b, env))
    ∧ (env.cachedBody = none → u.hasBodyStream = true →
        stream env.readCount = Except.ok b →
        bodyCall env stream
          = (some b, { env with cachedBody := some b, readCount := env.readCount + 1 })
        ∧ bodyCall { env with cachedBody := some b, readCount := env.readCount + 1 } stream
          = (some b, { env with cachedBody := some b, readCount := env.readCount + 1 }))
    ∧ (env.cachedBody = none → u.hasBodyStream = true →
        stream env.readCount = Except.error e →
        bodyCall env stream
          = (none, { env with errRecorded := some e, readCount := env.readCount + 1 })) := by
  refine ⟨?_, ?_, ?_⟩
  · intro hcb
    simp [bodyCall, hu, hcb]
  · intro hcb hst hok
    constructor
    · simp [bodyCall, hu, hcb, hst, hok]
    · simp [bodyCall, hu]
  · intro hcb hst herr
    simp [bodyCall, hu, hcb, hst, herr]

/-- Witness for the amended C5: a successful first read caches two
bytes after one read attempt, and a second call returns the same bytes
with the state unchanged. -/
theorem body_cache_amended_witness :
    bodyCall envA streamA
      = (some [104, 105], { envA with cachedBody := some [104, 105], readCount := 1 })
    ∧ bodyCall { envA with cachedBody := some [104, 105], readCount := 1 } streamA
      = (some [104, 105], { envA with cachedBody := some [104, 105], readCount := 1 }) := by
  have h := body_cache_amended envA
    { statusCode := 200, header := [], hasBodyStream := true }
    streamA [104, 105] "x" rfl
  exact h.2.1 rfl rfl rfl

/-- Claim C6 (corrected), counterexample: the client-level SetBodyJSON
with the non-JSON string "hello" leaves the body unchanged but does NOT
force Content-Type (a prior text/plain survives), contradicting the
"in all cases for both setters" part; and the string "5" is accepted
verbatim by the client-level setter although it is not bracket-balanced,
contradicting the "exactly when bracket-balanced" part. -/
theorem json_body_claim_false :
    (clientSetBodyJSONString c6client "hello").body = "B"
    ∧ headerGet (clientSetBodyJSONString c6client "hello").header "Content-Type"
        = "text/plain"
    ∧ ("text/plain" : String) ≠ contentTypeJson
    ∧ (clientSetBodyJSONString newClient "5").body = "5"
    ∧ isJSON "5" = false := by
  decide

/-- Claim C6 (corrected), amended: the request-level setter passes a
string through exactly when it is bracket-balanced (isJSON) and forces
Content-Type application/json in all cases; the client-level setter
passes a string through exactly when it is syntactically valid JSON
(encoding/json json.Valid) and forces Content-Type only on acceptance —
a rejected string leaves body and headers unchanged (and is logged). -/
theorem setBodyJSON_amended (r : RequestM) (c : ClientM) (s : String) :
    (reqSetBodyJSONString r s).body = (if isJSON s then s else r.body)
    ∧ headerGet (reqSetBodyJSONString r s).header "Content-Type" = contentTypeJson
    ∧ (clientSetBodyJSONString c s).body = (if jsonValid s then s else c.body)
    ∧ headerGet (clientSetBodyJSONString c s).header "Content-Type"
        = (if jsonValid s then contentTypeJson
           else headerGet c.header "Content-Type") := by
  refine ⟨?_, ?_, ?_, ?_⟩
  · by_cases h : isJSON s = true <;> simp [reqSetBodyJSONString, h]
  · by_cases h : isJSON s = true <;>
      simp [reqSetBodyJSONString, h, headerGet_headerSet]
  · by_cases h : jsonValid s = true <;> simp [clientSetBodyJSONString, h]
  · by_cases h : jsonValid s = true <;>
      simp [clientSetBodyJSONString, h, headerGet_headerSet]

/-- Claim C7 (code bug): with non-empty form parameters the stream
attached to the wire request is the urlencoded form, but the re-read
supplier installed during assembly (and placed on the wire request)
yields the raw body string — here the empty string — so supplier and
attached stream differ. -/
theorem form_body_supplier_mismatch :
    Except.map (fun w => w.bodyStream) (newRequest newClient c7req).1
      = Except.ok "a=b"
    ∧ Except.map (fun w => w.getBody ()) (newRequest newClient c7req).1
        = Except.ok (Except.ok "")
    ∧ ((newRequest newClient c7req).2.getBody.map (fun f => f ()))
        = some (Except.ok "")
    ∧ ("a=b" : String) ≠ "" :=
  ⟨rfl, rfl, rfl, by decide⟩

/-- Claim C8 (confirmed): assembling base URL http://example.com/api
with path /v1/users and query id=5 yields exactly
http://example.com/api/v1/users?id=5, and removeEmptyPort strips the
empty port suffix from example.com: . -/
theorem url_assembly_examples :
    Except.map (fun w => w.urlString) (assembleForPath c8client c8req "/v1/users").1
      = Except.ok "http://example.com/api/v1/users?id=5"
    ∧ removeEmptyPort "example.com:" = "example.com" :=
  ⟨rfl, by decide⟩

/-- Claim C9 (confirmed): R() snapshots the client defaults into freshly
allocated cells whose contents equal the client view at snapshot time,
and any later sequence of client mutations (header, query, form, cookie
setters, cookie clearing) leaves the view of the already-created
descriptor unchanged. -/
theorem r_snapshot_isolation (w : HWorld) (c : ClientRefs)
    (hh : c.hRef < w.headersS.cells.length)
    (hq : c.qRef < w.queriesS.cells.length)
    (hf : c.fRef < w.formsS.cells.length)
    (hc : c.cRef < w.cookiesS.cells.length) :
    requestView (clientR w c).1 (clientR w c).2 = clientView w c
    ∧ ∀ ms : List ClientMut,
        requestView (applyMuts c (clientR w c).1 ms) (clientR w c).2
          = requestView (clientR w c).1 (clientR w c).2 := by
  constructor
  · simp [clientR, requestView, clientView, Store.alloc, Store.get,
      getD_append_len, headerClone_eq, copyMap_eq, copyValues_eq,
      copyCookieList_eq]
  · intro ms
    exact applyMuts_requestView c (clientR w c).2
      (Nat.ne_of_lt hh) (Nat.ne_of_lt hq) (Nat.ne_of_lt hf) (Nat.ne_of_lt hc)
      ms (clientR w c).1

/-- Witness for C9: on a one-cell world, after a header set, query set,
form set, cookie add and cookie clear on the client, the descriptor
still observes the original snapshot. -/
theorem r_snapshot_isolation_witness :
    requestView (applyMuts c0 (clientR w0 c0).1 msW) (clientR w0 c0).2
      = clientView w0 c0 := by
  have h := r_snapshot_isolation w0 c0 (by decide) (by decide) (by decide) (by decide)
  rw [h.2 msW, h.1]

/-- Claim C10 (confirmed): on an envelope whose underlying response is
nil every accessor is total and neutral: Body yields nil without
touching any stream, StatusCode is 0, Header is empty, and all three
status classifications are false. -/
theorem nil_response_accessors (env : RespEnv)
    (stream : Nat → Except String (List Nat)) (hu : env.underlying = none) :
    bodyCall env stream = (none, env)
    ∧ respStatusCode env = 0
    ∧ respHeader env = []
    ∧ isSuccess env = false
    ∧ isClientError env = false
    ∧ isServerError env = false := by
  refine ⟨?_, ?_, ?_, ?_, ?_, ?_⟩ <;>
    simp [bodyCall, respStatusCode, respHeader, isSuccess, isClientError,
      isServerError, hu]

/-- Witness for C10 on the concrete nil envelope. -/
theorem nil_response_accessors_witness :
    bodyCall envNil streamA = (none, envNil)
    ∧ respStatusCode envNil = 0
    ∧ respHeader envNil = []
    ∧ isSuccess envNil = false
    ∧ isClientError envNil = false
    ∧ isServerError envNil = false :=
  nil_response_accessors envNil streamA rfl

end QuicklyHttps
